import Mathlib

namespace Atlas

/-! ## Definitions: the shallow embedding of the scan package -/

/-- Splits a character list at every separator matching `p`, keeping empty
chunks (the behaviour of Go `strings.Split` for a one-character separator,
here generalised to a predicate). -/
def splitOnP (p : Char → Bool) : List Char → List (List Char)
  | [] => [[]]
  | x :: xs =>
    let r := splitOnP p xs
    if p x then [] :: r
    else
      match r with
      | [] => [[x]]
      | y :: ys => (x :: y) :: ys

/-- Go `strings.Split(s, sep)` for a one-character separator `c`. -/
def goSplit (c : Char) (s : String) : List String :=
  (splitOnP (fun x => x == c) s.data).map (fun l => (⟨l⟩ : String))

/-- Go `strings.Fields`: splits around runs of whitespace, dropping empties. -/
def goFields (s : String) : List String :=
  ((splitOnP Char.isWhitespace s.data).filter (fun l => !l.isEmpty)).map
    (fun l => (⟨l⟩ : String))

/-- Go `strings.Join(xs, sep)`. -/
def goJoin (sep : String) : List String → String
  | [] => ""
  | [x] => x
  | x :: xs => x ++ sep ++ goJoin sep xs

/-- Go `strings.TrimRight(s, "/")`: removes all trailing slash characters. -/
def trimRightSlashes (s : String) : String :=
  ⟨(s.data.reverse.dropWhile (fun c => c == '/')).reverse⟩

/-- Go `strings.TrimSuffix(s, ".")`. -/
def trimSuffixDot (s : String) : String :=
  if s.endsWith "." then ⟨s.data.dropLast⟩ else s

/-- Decimal value of a digit run; `none` when empty or a non-digit occurs. -/
def digitsVal : List Char → Option Nat
  | [] => none
  | [c] => if c.isDigit then some (c.toNat - '0'.toNat) else none
  | c :: cs =>
    if c.isDigit then
      (digitsVal cs).map (fun n => (c.toNat - '0'.toNat) * 10 ^ cs.length + n)
    else none

/-- Go `strconv.Atoi`: optional sign followed by at least one digit
(integer range limits are not modelled; the parsed port numbers are small). -/
def goAtoi (s : String) : Option Int :=
  match s.data with
  | '+' :: ds => (digitsVal ds).map Int.ofNat
  | '-' :: ds => (digitsVal ds).map (fun n => -(n : Int))
  | ds => (digitsVal ds).map Int.ofNat

/-- The Go pattern `portNum, _ := strconv.Atoi(portStr)`: the error is
ignored, so a failed parse leaves the zero value. -/
def atoiOrZero (s : String) : Int := (goAtoi s).getD 0

/-- `RemotePort` mirrors the Go struct of the same name (remote payload
port entry). -/
structure RemotePort where
  Port : Int
  Protocol : String
  Service : String
  State : String
  deriving DecidableEq, Repr

/-- `PortDetails` bundles the port slice with the string summary stored in
SQLite, as in the Go struct. -/
structure PortDetails where
  Summary : String
  Ports : List RemotePort
  deriving DecidableEq, Repr

/-- The Go loop body condition of `parseNmapPorts`: an entry is processed
when it has at least 5 slash-separated fields and its state field is
exactly "open" or "filtered". -/
def entryKept (fields : List String) : Bool :=
  5 ≤ fields.length &&
    (fields.getD 1 "" == "open" || fields.getD 1 "" == "filtered")

/-- The human-readable rendering `parseNmapPorts` appends for a kept entry:
`portStr/proto`, plus ` (service)` when the service field is non-empty. -/
def entryReadable (fields : List String) : String :=
  let part := fields.getD 0 "" ++ "/" ++ fields.getD 2 ""
  if fields.getD 4 "" ≠ "" then part ++ " (" ++ fields.getD 4 "" ++ ")"
  else part

/-- The structured `RemotePort` that `parseNmapPorts` appends for a kept
entry. -/
def entryPort (fields : List String) : RemotePort :=
  { Port := atoiOrZero (fields.getD 0 "")
    Protocol := fields.getD 2 ""
    Service := fields.getD 4 ""
    State := fields.getD 1 "" }

/-- One iteration of the `parseNmapPorts` loop over a comma-separated
entry: on a kept entry both accumulators are extended in lockstep. -/
def parseStep (acc : List String × List RemotePort) (p : String) :
    List String × List RemotePort :=
  if (goSplit '/' p).length < 5 then acc
  else if (goSplit '/' p).getD 1 "" = "open" ∨
      (goSplit '/' p).getD 1 "" = "filtered" then
    (acc.1 ++ [entryReadable (goSplit '/' p)],
     acc.2 ++ [entryPort (goSplit '/' p)])
  else acc

/-- Go `parseNmapPorts` (deep_scan.go): splits the grepable ports field on
commas, keeps entries per `parseStep`, and renders the summary, falling
back to "Unknown" when nothing was kept. -/
def parseNmapPorts (s : String) : PortDetails :=
  let parts := goSplit ',' s
  let acc := parts.foldl parseStep ([], [])
  { Summary := if 0 < acc.1.length then goJoin ", " acc.1 else "Unknown"
    Ports := acc.2 }

/-- JSON-like values standing for Go `any` inside `map[string]any`
metadata. -/
inductive Jv where
  | str (s : String)
  | num (n : Int)
  | boolean (b : Bool)
  | null
  | arr (xs : List Jv)
  | obj (fields : List (String × Jv))

/-- Go `time.Time`, modelled by the three observations the scan package
makes of it: `IsZero()`, `UTC().Format(time.RFC3339)`, and
`Format("2006-01-02 15:04:05")`. -/
structure GoTime where
  isZero : Bool
  rfc3339UTC : String
  sqlFormat : String

/-- `RemoteHostPayload` mirrors the Go struct (the `/ingest` wire shape).
Go nil slices/maps are represented by empty lists. -/
structure RemoteHostPayload where
  IP : String
  Hostname : String
  OS : String
  MAC : String
  Note : String
  Tags : List String
  LastSeen : String
  Metadata : List (String × Jv)
  Ports : List RemotePort

/-- `RemotePayload` mirrors the Go struct (top-level `/ingest` body). -/
structure RemotePayload where
  SiteName : String
  AgentVersion : String
  Hosts : List RemoteHostPayload

/-- `HostRecord` mirrors the Go struct: the canonical in-memory
representation of one discovered host.  `Metadata` (Go `map[string]any`)
is an association list with the map's key uniqueness left implicit. -/
structure HostRecord where
  IP : String
  Hostname : String
  OS : String
  MAC : String
  PortSummary : String
  Ports : List RemotePort
  NextHop : String
  NetworkName : String
  InterfaceName : String
  Tags : List String
  Note : String
  Metadata : List (String × Jv)
  LastSeen : GoTime
  OnlineStatus : String

/-- Go map update `m[k] = v` on the association-list model: replaces the
value when the key is present, otherwise appends the pair. -/
def insertKV (m : List (String × Jv)) (k : String) (v : Jv) :
    List (String × Jv) :=
  if m.any (fun kv => kv.1 == k) then
    m.map (fun kv => if kv.1 = k then (k, v) else kv)
  else m ++ [(k, v)]

/-- Go `HostRecord.metadataForPayload`: copies the metadata map and adds
the interface, network and next-hop keys when non-empty. -/
def HostRecord.metadataForPayload (h : HostRecord) : List (String × Jv) :=
  let meta := h.Metadata
  let meta := if h.InterfaceName ≠ "" then
      insertKV meta "interface_name" (Jv.str h.InterfaceName) else meta
  let meta := if h.NetworkName ≠ "" then
      insertKV meta "network_name" (Jv.str h.NetworkName) else meta
  if h.NextHop ≠ "" then insertKV meta "next_hop" (Jv.str h.NextHop) else meta

/-- The Go rendering `fmt.Sprintf("%d/%s", ...)` plus optional service and
state decorations used by `HostRecord.PortsSummary`. -/
def renderStoredPort (p : RemotePort) : String :=
  let part := toString p.Port ++ "/" ++ p.Protocol
  let part := if p.Service ≠ "" then part ++ " (" ++ p.Service ++ ")" else part
  if p.State ≠ "" then part ++ " [" ++ p.State ++ "]" else part

/-- Go `HostRecord.PortsSummary`: the stored summary when present,
otherwise a rendering of the structured port list, "Unknown" when empty. -/
def HostRecord.PortsSummary (h : HostRecord) : String :=
  if h.PortSummary ≠ "" then h.PortSummary
  else if h.Ports.length = 0 then "Unknown"
  else
    let readable := h.Ports.map renderStoredPort
    if readable.length = 0 then "Unknown" else goJoin ", " readable

/-- Go `HostRecord.ToRemoteHostPayload`: projects a record onto the wire
shape, formatting the timestamp and normalising empty tag/port/metadata
collections to nil (here `[]`). -/
def HostRecord.ToRemoteHostPayload (h : HostRecord) : RemoteHostPayload :=
  let lastSeen := if !h.LastSeen.isZero then h.LastSeen.rfc3339UTC else ""
  let payload : RemoteHostPayload :=
    { IP := h.IP
      Hostname := h.Hostname
      OS := h.OS
      MAC := h.MAC
      Note := h.Note
      Tags := h.Tags
      LastSeen := lastSeen
      Metadata := []
      Ports := h.Ports }
  let meta := h.metadataForPayload
  let payload := if 0 < meta.length then { payload with Metadata := meta }
    else payload
  let payload := if payload.Tags.length = 0 then { payload with Tags := [] }
    else payload
  if payload.Ports.length = 0 then { payload with Ports := [] } else payload

/-- Go `BuildRemotePayload`: wraps host payloads with site metadata. -/
def BuildRemotePayload (siteName agentVersion : String)
    (hosts : List HostRecord) : RemotePayload :=
  { SiteName := siteName
    AgentVersion := agentVersion
    Hosts := hosts.map HostRecord.ToRemoteHostPayload }

/-- The entries of a ports string that `parseNmapPorts` keeps: at least 5
slash-separated fields and a state of "open" or "filtered", in input
order. -/
def keptEntries (s : String) : List (List String) :=
  ((goSplit ',' s).map (goSplit '/')).filter entryKept

/-- Concrete host record used to witness the C8 claim. -/
def hostC8 : HostRecord :=
  { IP := "10.0.0.1"
    Hostname := "srv"
    OS := "Linux"
    MAC := "aa:bb:cc:dd:ee:ff"
    PortSummary := ""
    Ports := [{ Port := 22, Protocol := "tcp", Service := "ssh", State := "open" }]
    NextHop := ""
    NetworkName := "LAN"
    InterfaceName := "eth0"
    Tags := []
    Note := ""
    Metadata := []
    LastSeen := { isZero := true, rfc3339UTC := "", sqlFormat := "" }
    OnlineStatus := "online" }

/-- Go `getHostName` (deep_scan.go): reverse DNS.  The `net.LookupAddr`
outcome is an oracle parameter (error, or the returned name list);
errors and empty lists produce "NoName", otherwise the first name with a
trailing dot removed. -/
def getHostName (dns : Except Unit (List String)) : String :=
  match dns with
  | .error _ => "NoName"
  | .ok names =>
    if names.length = 0 then "NoName" else trimSuffixDot (names.headD "")

/-- The line scan inside Go `getNetBIOSName`: the first line whose fields
start with the queried IP yields its second field. -/
def nbtFirstMatch (ip : String) : List String → String
  | [] => ""
  | line :: rest =>
    if 2 ≤ (goFields line).length ∧ (goFields line).getD 0 "" = ip then
      (goFields line).getD 1 ""
    else nbtFirstMatch ip rest

/-- Go `getNetBIOSName` (deep_scan.go): the `nbtscan` invocation outcome
is an oracle parameter (error, or its stdout); an error yields "". -/
def getNetBIOSName (nbt : Except Unit String) (ip : String) : String :=
  match nbt with
  | .error _ => ""
  | .ok out => nbtFirstMatch ip (goSplit (Char.ofNat 10) out)

/-- Go `bestHostName` (deep_scan.go). -/
def bestHostName (dns : Except Unit (List String)) (nbt : Except Unit String)
    (ip nmapName : String) : String :=
  if nmapName ≠ "" ∧ nmapName ≠ "NoName" then nmapName
  else if getHostName dns ≠ "" ∧ getHostName dns ≠ "NoName" then
    getHostName dns
  else if getNetBIOSName nbt ip ≠ "" then getNetBIOSName nbt ip
  else "NoName"

/-- The resolver chain as the spec words it, first success wins: the
sweep-reported name when meaningful (non-empty, not the placeholder),
otherwise the reverse-DNS name (an error or empty lookup falls through;
a resolved name is the first answer with its trailing dot removed, kept
when non-empty and not "NoName"), otherwise the NetBIOS name when
non-empty, otherwise the literal "NoName". -/
def specHostNameChain (dns : Except Unit (List String))
    (nbt : Except Unit String) (ip nmapName : String) : String :=
  let step1 : Option String :=
    if nmapName ≠ "" ∧ nmapName ≠ "NoName" then some nmapName else none
  let step2 : Option String :=
    match dns with
    | .error _ => none
    | .ok names =>
      if names.length = 0 then none
      else
        if trimSuffixDot (names.headD "") ≠ "" ∧
            trimSuffixDot (names.headD "") ≠ "NoName" then
          some (trimSuffixDot (names.headD ""))
        else none
  let step3 : Option String :=
    if getNetBIOSName nbt ip ≠ "" then some (getNetBIOSName nbt ip) else none
  ((step1 <|> step2) <|> step3).getD "NoName"

/-- One element-processing step of Go `path.Clean` on the stack of output
elements: empty and "." elements are dropped, ".." pops a non-".." top
(and at the root of a rooted path is dropped), anything else is pushed. -/
def cleanStep (rooted : Bool) (stack : List String) (e : String) :
    List String :=
  if e = "" ∨ e = "." then stack
  else if e = ".." then
    match stack with
    | [] => if rooted then [] else [".."]
    | top :: rest => if top = ".." then ".." :: top :: rest else rest
  else e :: stack

/-- Go `path.Clean`: squashes repeated slashes, removes "." elements,
resolves ".." elements, returns "." for an empty result of a relative
path and keeps the leading slash of a rooted one. -/
def goPathClean (p : String) : String :=
  let rooted := p.data.headD ' ' = '/'
  let stack := (goSplit '/' p).foldl (cleanStep rooted) []
  let body := goJoin "/" stack.reverse
  if rooted then "/" ++ body
  else if body = "" then "." else body

/-- Go `path.Join`: joins the elements from the first non-empty one with
slashes and cleans the result; all-empty input yields "". -/
def goPathJoin (elems : List String) : String :=
  match elems.dropWhile (fun e => e == "") with
  | [] => ""
  | rest => goPathClean (goJoin "/" rest)

/-- `RemoteConfig` mirrors the Go struct (the `HTTPClient` handle is
abstracted into the network oracle of `RemoteConfig.PostPayload`). -/
structure RemoteConfig where
  ControllerURL : String
  SiteID : String
  AgentID : String
  SiteName : String
  AgentVersion : String
  Token : String

/-- Go `RemoteConfig.Enabled`: all three mandatory fields are set. -/
def RemoteConfig.Enabled (rc : RemoteConfig) : Bool :=
  rc.ControllerURL ≠ "" && rc.SiteID ≠ "" && rc.AgentID ≠ ""

/-- Go `RemoteConfig.endpoint`: errors when not enabled, otherwise the
trimmed controller URL followed by the joined ingest path. -/
def RemoteConfig.endpoint (rc : RemoteConfig) : Except String String :=
  if !rc.Enabled then
    .error "remote config incomplete: controller url, site id, and agent id are required"
  else
    .ok (trimRightSlashes rc.ControllerURL ++ "/" ++
      goPathJoin ["sites", rc.SiteID, "agents", rc.AgentID, "ingest"])

/-- Observable side effects of the emission path: an HTTP POST to an
endpoint, a JSON payload echo to stdout, or a diagnostic log line. -/
inductive Effect where
  | post (endpoint : String) (payload : RemotePayload)
  | echoJSON (payload : RemotePayload)
  | logLine (line : String)

def Effect.isPost : Effect → Bool
  | .post _ _ => true
  | _ => false

def Effect.isEchoJSON : Effect → Bool
  | .echoJSON _ => true
  | _ => false

/-- Go `RemoteConfig.PostPayload`: resolves the endpoint and issues one
POST.  The HTTP round-trip (client, bearer header, status handling) is
the oracle `net`; JSON marshalling of the payload model cannot fail. -/
def RemoteConfig.PostPayload (net : String → RemotePayload → Except String Unit)
    (rc : RemoteConfig) (payload : RemotePayload) :
    Except String Unit × List Effect :=
  match rc.endpoint with
  | .error e => (.error e, [])
  | .ok ep => (net ep payload, [.post ep payload])

/-- `RemotePayloadOptions` mirrors the Go struct. -/
structure RemotePayloadOptions where
  PrintJSON : Bool
  Config : RemoteConfig

/-- Go `RemotePayloadOptions.shouldEmit`. -/
def RemotePayloadOptions.shouldEmit (o : RemotePayloadOptions) : Bool :=
  o.PrintJSON || o.Config.Enabled

/-- Go `RemotePayloadOptions.emit`: nothing when emission is off,
otherwise an optional JSON echo followed by the POST when remote
emission is enabled (`json.MarshalIndent` on the payload model cannot
fail). -/
def RemotePayloadOptions.emit (net : String → RemotePayload → Except String Unit)
    (o : RemotePayloadOptions) (payload : RemotePayload) :
    Except String Unit × List Effect :=
  if !o.shouldEmit then (.ok (), [])
  else
    let echo : List Effect := if o.PrintJSON then [.echoJSON payload] else []
    if o.Config.Enabled then
      let r := RemoteConfig.PostPayload net o.Config payload
      (r.1, echo ++ r.2)
    else (.ok (), echo)

/-- Go `emitHosts`: skips silently when emission is off, warns and skips
on an empty batch, otherwise logs the preparation diagnostics (their
text abbreviated here), applies the site-name and agent-version
defaulting, builds the payload and emits it.  `scannerVersion` stands
for the package-level `ScannerVersion` variable. -/
def emitHosts (net : String → RemotePayload → Except String Unit)
    (scannerVersion : String) (hosts : List HostRecord)
    (opts : RemotePayloadOptions) : Except String Unit × List Effect :=
  if !opts.shouldEmit then (.ok (), [])
  else if hosts.length = 0 then
    (.ok (), [.logLine "⚠️ No hosts discovered; skipping remote payload"])
  else
    let prepLogs : List Effect :=
      Effect.logLine "[remote] preparing payload" ::
        (hosts.filter (fun h => h.Ports.length = 0)).map
          (fun h => Effect.logLine ("[remote] host " ++ h.IP ++ " has no parsed ports"))
    let siteName :=
      if opts.Config.SiteName = "" then opts.Config.SiteID else opts.Config.SiteName
    let agentVersion :=
      if opts.Config.AgentVersion = "" then scannerVersion
      else opts.Config.AgentVersion
    let payload := BuildRemotePayload siteName agentVersion hosts
    let r := opts.emit net payload
    (r.1, prepLogs ++ r.2)

/-- A remote config with an empty SiteID, used by the C5 witness. -/
def rcNoSite : RemoteConfig :=
  { ControllerURL := "https://ctrl.example.com", SiteID := "",
    AgentID := "agent1", SiteName := "", AgentVersion := "", Token := "" }

/-- A network oracle that always accepts, for concrete instantiations. -/
def netOk : String → RemotePayload → Except String Unit := fun _ _ => .ok ()

/-- An empty concrete payload for concrete instantiations. -/
def payEmpty : RemotePayload :=
  { SiteName := "s", AgentVersion := "v", Hosts := [] }

/-- A fully enabled remote config, used by concrete instantiations. -/
def rcFull : RemoteConfig :=
  { ControllerURL := "https://ctrl.example.com/api/", SiteID := "site1",
    AgentID := "agent1", SiteName := "HQ", AgentVersion := "v1",
    Token := "tok" }

/-- The config of the C6 counterexample: a SiteID of ".." is resolved
away by `path.Join`'s cleaning. -/
def rcDotDot : RemoteConfig :=
  { ControllerURL := "https://ctrl.example.com/api/", SiteID := "..",
    AgentID := "agent1", SiteName := "", AgentVersion := "", Token := "" }

/-- Object key lookup, as `json.Unmarshal` resolves struct tags. -/
def jLookup (k : String) : List (String × Jv) → Option Jv
  | [] => none
  | (k2, v) :: rest => if k = k2 then some v else jLookup k rest

/-- A conditionally present object field (`omitempty` behaviour). -/
def optField (k : String) (b : Bool) (v : Jv) : List (String × Jv) :=
  if b then [(k, v)] else []

def jGetStr (fs : List (String × Jv)) (k : String) : String :=
  match jLookup k fs with
  | some (.str s) => s
  | _ => ""

def jGetInt (fs : List (String × Jv)) (k : String) : Int :=
  match jLookup k fs with
  | some (.num n) => n
  | _ => 0

def jvToStr : Jv → String
  | .str s => s
  | _ => ""

/-- Go `json.Marshal` on `RemotePort`: `port` and `protocol` always,
`service` and `state` with `omitempty`. -/
def encodeRemotePort (p : RemotePort) : Jv :=
  .obj ([("port", Jv.num p.Port), ("protocol", Jv.str p.Protocol)] ++
    optField "service" (p.Service != "") (Jv.str p.Service) ++
    optField "state" (p.State != "") (Jv.str p.State))

/-- Go `json.Unmarshal` into `RemotePort`: absent keys leave zero values. -/
def decodeRemotePort (j : Jv) : RemotePort :=
  match j with
  | .obj fs =>
    { Port := jGetInt fs "port"
      Protocol := jGetStr fs "protocol"
      Service := jGetStr fs "service"
      State := jGetStr fs "state" }
  | _ => { Port := 0, Protocol := "", Service := "", State := "" }

/-- The object fields `json.Marshal` produces for a `RemoteHostPayload`:
`ip` always, every other tagged field with `omitempty`. -/
def hostFields (p : RemoteHostPayload) : List (String × Jv) :=
  [("ip", Jv.str p.IP)] ++
  optField "hostname" (p.Hostname != "") (Jv.str p.Hostname) ++
  optField "os" (p.OS != "") (Jv.str p.OS) ++
  optField "mac" (p.MAC != "") (Jv.str p.MAC) ++
  optField "note" (p.Note != "") (Jv.str p.Note) ++
  optField "tags" (!p.Tags.isEmpty) (Jv.arr (p.Tags.map Jv.str)) ++
  optField "last_seen" (p.LastSeen != "") (Jv.str p.LastSeen) ++
  optField "metadata" (!p.Metadata.isEmpty) (Jv.obj p.Metadata) ++
  optField "ports" (!p.Ports.isEmpty) (Jv.arr (p.Ports.map encodeRemotePort))

/-- Go `json.Marshal` on `RemoteHostPayload`. -/
def encodeRemoteHostPayload (p : RemoteHostPayload) : Jv := .obj (hostFields p)

/-- Go `json.Unmarshal` into `RemoteHostPayload`. -/
def decodeRemoteHostPayload (j : Jv) : RemoteHostPayload :=
  match j with
  | .obj fs =>
    { IP := jGetStr fs "ip"
      Hostname := jGetStr fs "hostname"
      OS := jGetStr fs "os"
      MAC := jGetStr fs "mac"
      Note := jGetStr fs "note"
      Tags :=
        match jLookup "tags" fs with
        | some (.arr xs) => xs.map jvToStr
        | _ => []
      LastSeen := jGetStr fs "last_seen"
      Metadata :=
        match jLookup "metadata" fs with
        | some (.obj m) => m
        | _ => []
      Ports :=
        match jLookup "ports" fs with
        | some (.arr xs) => xs.map decodeRemotePort
        | _ => [] }
  | _ =>
    { IP := "", Hostname := "", OS := "", MAC := "", Note := "", Tags := [],
      LastSeen := "", Metadata := [], Ports := [] }

/-- `AgentConfig` mirrors the Go struct (`Interval` in nanoseconds). -/
structure AgentConfig where
  Remote : RemoteConfig
  Interval : Int
  Once : Bool
  PrintJSON : Bool
  ScanCommand : String

/-- What `RunRemoteAgent` has done after a bounded number of timer ticks:
returned with an error, returned normally, or still looping. -/
inductive AgentOutcome where
  | err (msg : String)
  | stopped
  | running
  deriving DecidableEq

/-- The `for tick := range ticker.C` loop of Go `RunRemoteAgent`: every
tick runs one cycle; a failure is logged and the loop continues; a
success is logged and the loop continues; the loop never exits, so after
any finite number of observed ticks it is still running. -/
def agentLoop (cycles : Nat → Except String Unit) : Nat → Nat → AgentOutcome
  | _, 0 => .running
  | i, n + 1 =>
    match cycles i with
    | .error _ => agentLoop cycles (i + 1) n
    | .ok _ => agentLoop cycles (i + 1) n

/-- Go `RunRemoteAgent` (agent.go): rejects a disabled remote config,
applies defaulting (site name, agent version, interval, scan command —
none of which affects the control flow), runs the initial cycle
immediately and returns its error when it fails, returns after the
first cycle in one-shot mode, and otherwise enters the tick loop.  The
result of the i-th `runOnce` invocation is the oracle `cycles i`;
`ticks` bounds the observation window. -/
def runRemoteAgent (cycles : Nat → Except String Unit) (ticks : Nat)
    (cfg : AgentConfig) : AgentOutcome :=
  if !cfg.Remote.Enabled then
    .err "remote agent requires controller URL, site ID, and agent ID"
  else
    match cycles 0 with
    | .error e => .err e
    | .ok _ => if cfg.Once then .stopped else agentLoop cycles 1 ticks

/-- A repeating-mode (Once = false) agent config over the enabled remote
config. -/
def cfgRepeat : AgentConfig :=
  { Remote := rcFull, Interval := 0, Once := false, PrintJSON := false,
    ScanCommand := "deepscan" }

/-- An oracle whose first cycle fails. -/
def cyclesFailFirst : Nat → Except String Unit := fun _ => .error "scan failed"

/-- An oracle whose first cycle succeeds and all later cycles fail. -/
def cyclesFailLater : Nat → Except String Unit :=
  fun i => if i = 0 then .ok () else .error "cycle failed"

/-- A row of the SQLite `hosts` table. -/
structure HostRow where
  ip : String
  name : String
  os_details : String
  mac_address : String
  open_ports : String
  next_hop : String
  network_name : String
  interface_name : String
  last_seen : String
  online_status : String
  deriving DecidableEq, Repr

/-- The defaulting at the top of Go `upsertHost`: empty NetworkName
becomes "LAN", a zero LastSeen becomes `time.Now()` (the `now`
parameter), an empty OnlineStatus becomes "online". -/
def applyUpsertDefaults (now : GoTime) (host : HostRecord) : HostRecord :=
  { host with
    NetworkName := if host.NetworkName = "" then "LAN" else host.NetworkName
    LastSeen := if host.LastSeen.isZero then now else host.LastSeen
    OnlineStatus := if host.OnlineStatus = "" then "online"
      else host.OnlineStatus }

/-- The column values the INSERT of Go `upsertHost` binds from the
(defaulted) record; open_ports is `host.PortsSummary()` and last_seen is
`host.LastSeen.Format("2006-01-02 15:04:05")`. -/
def rowOfHost (h : HostRecord) : HostRow :=
  { ip := h.IP
    name := h.Hostname
    os_details := h.OS
    mac_address := h.MAC
    open_ports := h.PortsSummary
    next_hop := h.NextHop
    network_name := h.NetworkName
    interface_name := h.InterfaceName
    last_seen := h.LastSeen.sqlFormat
    online_status := h.OnlineStatus }

/-- The ON CONFLICT DO UPDATE assignment of Go `upsertHost`: the mutable
columns (name, os_details, mac_address, open_ports, next_hop, last_seen,
online_status) are overwritten from the excluded row; ip, interface_name
and network_name keep the existing row's values. -/
def updateRow (r v : HostRow) : HostRow :=
  { r with
    name := v.name
    os_details := v.os_details
    mac_address := v.mac_address
    open_ports := v.open_ports
    next_hop := v.next_hop
    last_seen := v.last_seen
    online_status := v.online_status }

/-- The (ip, interface_name) key test. -/
def keyIs (ip iface : String) (r : HostRow) : Bool :=
  r.ip == ip && r.interface_name == iface

/-- The INSERT ... ON CONFLICT(ip, interface_name) DO UPDATE statement on
the table model: rows conflicting on the key are updated, otherwise the
new row is appended. -/
def upsertRow (table : List HostRow) (v : HostRow) : List HostRow :=
  if table.any (keyIs v.ip v.interface_name) then
    table.map (fun r => if keyIs v.ip v.interface_name r then updateRow r v
      else r)
  else table ++ [v]

/-- Go `upsertHost`: defaulting followed by the upsert statement. -/
def upsertHost (now : GoTime) (table : List HostRow) (host : HostRecord) :
    List HostRow :=
  upsertRow table (rowOfHost (applyUpsertDefaults now host))

/-- The interfaces Go `SaveHostsToDB` collects for the offline-marking
sweep: the non-empty interface names of the batch. -/
def touchedInterfaces (hosts : List HostRecord) : List String :=
  (hosts.map HostRecord.InterfaceName).filter (fun n => n ≠ "")

/-- One `UPDATE hosts SET online_status = 'offline' WHERE
interface_name = ?` sweep, merged over the touched interfaces (the
per-interface updates commute, so one pass is equivalent). -/
def markOffline (touched : List String) (r : HostRow) : HostRow :=
  if r.interface_name ∈ touched then { r with online_status := "offline" }
  else r

/-- Go `SaveHostsToDB`: nothing on an empty batch; otherwise mark every
existing row on a touched interface offline, then upsert every record
in order (each upsert shares the cycle's `now` here; the claims do not
depend on the sub-second differences between the calls). -/
def SaveHostsToDB (now : GoTime) (table : List HostRow)
    (hosts : List HostRecord) : List HostRow :=
  if hosts.length = 0 then table
  else hosts.foldl (upsertHost now) (table.map (markOffline (touchedInterfaces hosts)))

/-- The mutable columns of a row, in the order of the DO UPDATE clause. -/
def mutableCols (r : HostRow) : List String :=
  [r.name, r.os_details, r.mac_address, r.open_ports, r.next_hop,
   r.last_seen, r.online_status]

/-- A timestamp for concrete instantiations. -/
def gt1 : GoTime :=
  { isZero := false, rfc3339UTC := "2026-01-01T00:00:00Z",
    sqlFormat := "2026-01-01 00:00:00" }

/-- A later timestamp for concrete instantiations. -/
def gt2 : GoTime :=
  { isZero := false, rfc3339UTC := "2026-01-02T00:00:00Z",
    sqlFormat := "2026-01-02 00:00:00" }

/-- First concrete observation of host 10.0.0.5. -/
def hostA : HostRecord :=
  { IP := "10.0.0.5", Hostname := "a", OS := "Linux", MAC := "aa",
    PortSummary := "Unknown", Ports := [], NextHop := "", NetworkName := "",
    InterfaceName := "eth0", Tags := [], Note := "", Metadata := [],
    LastSeen := gt1, OnlineStatus := "" }

/-- Second concrete observation of host 10.0.0.5, with changed fields. -/
def hostB : HostRecord :=
  { IP := "10.0.0.5", Hostname := "b", OS := "Windows", MAC := "bb",
    PortSummary := "22/tcp (ssh)", Ports := [], NextHop := "10.0.0.1",
    NetworkName := "LAN", InterfaceName := "eth0", Tags := [], Note := "",
    Metadata := [], LastSeen := gt2, OnlineStatus := "online" }

/-- A freshly observed record that carries OnlineStatus "offline". -/
def hostOff : HostRecord :=
  { IP := "10.0.0.9", Hostname := "gone", OS := "Unknown", MAC := "Unknown",
    PortSummary := "Unknown", Ports := [], NextHop := "", NetworkName := "LAN",
    InterfaceName := "eth1", Tags := [], Note := "", Metadata := [],
    LastSeen := gt1, OnlineStatus := "offline" }

/-- A pre-existing row on interface eth0 for a host the next sweep does
not observe. -/
def rowOld : HostRow :=
  { ip := "10.0.0.7", name := "old", os_details := "Linux",
    mac_address := "cc", open_ports := "Unknown", next_hop := "",
    network_name := "LAN", interface_name := "eth0",
    last_seen := "2025-01-01 00:00:00", online_status := "online" }

/-! ## Theorems -/

/-- C1: the repository's own test vectors, evaluated on `parseNmapPorts`
as implemented.  The code keeps only entries whose state is exactly
"open" or "filtered": the `open|filtered` entry is dropped (2 ports
remain instead of the 3 the test expects) and the `unfiltered` entry is
dropped (0 ports remain instead of 1). -/
theorem c1_parse_at_test_vectors :
    (parseNmapPorts
        "53/open|filtered/tcp//domain///, 123/open/udp//ntp///, 161/filtered/udp//snmp///").Ports.map
        RemotePort.State = ["open", "filtered"] ∧
    (parseNmapPorts "80/unfiltered/tcp//http///, 443/closed/tcp//https///").Ports
      = [] := by
  constructor
  · decide
  · decide

theorem entryKept_true_iff (f : List String) :
    entryKept f = true ↔
      (¬ f.length < 5 ∧ (f.getD 1 "" = "open" ∨ f.getD 1 "" = "filtered")) := by
  simp [entryKept, Nat.not_lt]

theorem parseStep_eq (acc : List String × List RemotePort) (p : String) :
    parseStep acc p =
      if entryKept (goSplit '/' p) = true then
        (acc.1 ++ [entryReadable (goSplit '/' p)],
         acc.2 ++ [entryPort (goSplit '/' p)])
      else acc := by
  unfold parseStep
  split_ifs with h5 hk hs hk hk
  · exact absurd ((entryKept_true_iff _).mp hk).1 (fun h => h h5)
  · rfl
  · rfl
  · exact absurd ((entryKept_true_iff _).mpr ⟨h5, hs⟩) hk
  · exact absurd ((entryKept_true_iff _).mp hk).2 hs
  · rfl

theorem parse_foldl (parts : List String) (r : List String)
    (q : List RemotePort) :
    parts.foldl parseStep (r, q) =
      (r ++ ((parts.map (goSplit '/')).filter entryKept).map entryReadable,
       q ++ ((parts.map (goSplit '/')).filter entryKept).map entryPort) := by
  induction parts generalizing r q with
  | nil => simp
  | cons p ps ih =>
    rw [List.foldl_cons, parseStep_eq]
    by_cases hk : entryKept (goSplit '/' p) = true
    · rw [if_pos hk, ih]
      simp [List.filter_cons, hk, List.append_assoc]
    · rw [if_neg hk, ih]
      simp only [Bool.not_eq_true] at hk
      simp [List.filter_cons, hk]

theorem parseNmapPorts_ports (s : String) :
    (parseNmapPorts s).Ports = (keptEntries s).map entryPort := by
  simp [parseNmapPorts, keptEntries, parse_foldl]

theorem parseNmapPorts_summary (s : String) :
    (parseNmapPorts s).Summary =
      if (keptEntries s).length = 0 then "Unknown"
      else goJoin ", " ((keptEntries s).map entryReadable) := by
  simp only [parseNmapPorts, keptEntries, parse_foldl, List.nil_append]
  rcases h : ((goSplit ',' s).map (goSplit '/')).filter entryKept with _ | _ <;>
    simp [h]

theorem slash_mem_entryReadable (f : List String) :
    '/' ∈ (entryReadable f).data := by
  have base : '/' ∈ ((f.getD 0 "" ++ "/" ++ f.getD 2 "").data) := by
    simp [String.data_append]
  unfold entryReadable
  split_ifs with h
  · simp only [String.data_append, List.mem_append] at base ⊢
    exact Or.inl (Or.inl (Or.inl base))
  · exact base

theorem slash_mem_goJoin (x : String) (xs : List String)
    (hx : '/' ∈ x.data) : '/' ∈ (goJoin ", " (x :: xs)).data := by
  cases xs with
  | nil => simpa [goJoin] using hx
  | cons y ys => simp [goJoin, String.data_append, hx]

theorem goJoin_readable_ne_unknown (x : List String) (xs : List (List String)) :
    goJoin ", " ((x :: xs).map entryReadable) ≠ "Unknown" := by
  intro h
  have hmem : '/' ∈ (goJoin ", " ((x :: xs).map entryReadable)).data :=
    slash_mem_goJoin _ _ (slash_mem_entryReadable x)
  rw [h] at hmem
  simp at hmem

theorem parseNmapPorts_unknown_iff (s : String) :
    ((parseNmapPorts s).Summary = "Unknown" ↔ (parseNmapPorts s).Ports = []) := by
  rw [parseNmapPorts_summary, parseNmapPorts_ports]
  rcases hkept : keptEntries s with _ | ⟨x, xs⟩
  · simp
  · simp only [List.length_cons, List.map_cons]
    constructor
    · intro hsum
      exact absurd (by simpa using hsum) (goJoin_readable_ne_unknown x xs)
    · intro hports
      simp at hports

/-- C8: the two views returned by `parseNmapPorts` never disagree: the
`Ports` list is exactly the kept entries in input order, the `Summary`
string is the comma-joined rendering of those same entries in the same
order, and `Summary` equals "Unknown" exactly when `Ports` is empty;
likewise `HostRecord.PortsSummary` with no stored summary renders exactly
the entries of the `Ports` list, or "Unknown" when that list is empty. -/
theorem c8_summary_ports_agreement (s : String) (h : HostRecord) :
    (parseNmapPorts s).Ports = (keptEntries s).map entryPort ∧
    (parseNmapPorts s).Summary =
      (if (keptEntries s).length = 0 then "Unknown"
        else goJoin ", " ((keptEntries s).map entryReadable)) ∧
    ((parseNmapPorts s).Summary = "Unknown" ↔ (parseNmapPorts s).Ports = []) ∧
    (h.PortSummary = "" →
      h.PortsSummary =
        (if h.Ports.length = 0 then "Unknown"
          else goJoin ", " (h.Ports.map renderStoredPort))) := by
  refine ⟨parseNmapPorts_ports s, parseNmapPorts_summary s,
    parseNmapPorts_unknown_iff s, ?_⟩
  intro hempty
  unfold HostRecord.PortsSummary
  rw [if_neg (by simp [hempty])]
  rcases hports : h.Ports with _ | ⟨x, xs⟩
  · simp
  · simp

theorem c8_summary_ports_agreement_witness :
    (parseNmapPorts "22/open/tcp//ssh///").Summary = "22/tcp (ssh)" ∧
    hostC8.PortsSummary = "22/tcp (ssh) [open]" := by
  have hmain := c8_summary_ports_agreement "22/open/tcp//ssh///" hostC8
  constructor
  · rw [hmain.2.1]
    decide
  · rw [hmain.2.2.2 rfl]
    decide

/-- C9: `bestHostName` implements exactly the spec's resolver chain —
sweep name, then reverse DNS, then NetBIOS, then "NoName", with error
and empty results falling through silently. -/
theorem c9_hostname_chain (dns : Except Unit (List String))
    (nbt : Except Unit String) (ip nmapName : String) :
    bestHostName dns nbt ip nmapName = specHostNameChain dns nbt ip nmapName := by
  unfold bestHostName specHostNameChain getHostName
  cases dns with
  | error e =>
    by_cases hA : nmapName ≠ "" ∧ nmapName ≠ "NoName" <;>
      by_cases hN : getNetBIOSName nbt ip ≠ "" <;>
        simp [hA, hN]
  | ok names =>
    by_cases hA : nmapName ≠ "" ∧ nmapName ≠ "NoName"
    · simp [hA]
    · by_cases hE : names.length = 0
      · by_cases hN : getNetBIOSName nbt ip ≠ "" <;>
          simp [hA, hE, hN]
      · by_cases hD : trimSuffixDot (names.head?.getD "") ≠ "" ∧
            trimSuffixDot (names.head?.getD "") ≠ "NoName"
        · simp [hA, hE, hD]
        · by_cases hN : getNetBIOSName nbt ip ≠ "" <;>
            simp [hA, hE, hD, hN]

/-- C5: `Enabled()` holds exactly when ControllerURL, SiteID and AgentID
are all non-empty, and whenever any of the three is empty no HTTP POST
is performed by `emit`, whatever the payload and whether or not
JSON-echo mode is set. -/
theorem c5_enablement_gate (rc : RemoteConfig) (o : RemotePayloadOptions)
    (net : String → RemotePayload → Except String Unit) (p : RemotePayload) :
    (rc.Enabled = true ↔
      (rc.ControllerURL ≠ "" ∧ rc.SiteID ≠ "" ∧ rc.AgentID ≠ "")) ∧
    ((o.Config.ControllerURL = "" ∨ o.Config.SiteID = "" ∨
        o.Config.AgentID = "") →
      ∀ e ∈ (o.emit net p).2, e.isPost = false) := by
  constructor
  · simp [RemoteConfig.Enabled, and_assoc]
  · intro hempty e he
    have hdis : o.Config.Enabled = false := by
      simp [RemoteConfig.Enabled]
      intro h1 h2
      rcases hempty with h | h | h
      · exact absurd h h1
      · exact absurd h h2
      · exact h
    unfold RemotePayloadOptions.emit at he
    rw [hdis] at he
    by_cases hs : o.shouldEmit = true <;>
      by_cases hp : o.PrintJSON = true <;>
        simp [hs, hp] at he <;>
          simp [he, Effect.isPost]

theorem c5_enablement_gate_witness :
    rcNoSite.Enabled = false ∧
    (RemotePayloadOptions.emit netOk
        { PrintJSON := true, Config := rcNoSite } payEmpty).2.all
      (fun e => !e.isPost) = true := by
  have h := c5_enablement_gate rcNoSite
    { PrintJSON := true, Config := rcNoSite } netOk payEmpty
  refine ⟨by decide, ?_⟩
  rw [List.all_eq_true]
  intro e he
  have hp := h.2 (Or.inr (Or.inl rfl)) e he
  simp [hp]

/-- C10: an empty host batch is a no-op for `emitHosts`: the result is
success, no HTTP POST happens and no JSON payload is echoed, for every
option combination including enabled remote emission with JSON-echo
mode set. -/
theorem c10_empty_batch_noop (net : String → RemotePayload → Except String Unit)
    (sv : String) (opts : RemotePayloadOptions) :
    (emitHosts net sv [] opts).1 = .ok () ∧
    ∀ e ∈ (emitHosts net sv [] opts).2,
      e.isPost = false ∧ e.isEchoJSON = false := by
  unfold emitHosts
  by_cases hs : opts.shouldEmit = true <;>
    simp [hs, Effect.isPost, Effect.isEchoJSON]

theorem c10_empty_batch_noop_witness :
    (emitHosts netOk "dev" [] { PrintJSON := true, Config := rcFull }).1
        = .ok () ∧
    (emitHosts netOk "dev" [] { PrintJSON := true, Config := rcFull }).2.all
      (fun e => !e.isPost && !e.isEchoJSON) = true := by
  have h := c10_empty_batch_noop netOk "dev" { PrintJSON := true, Config := rcFull }
  refine ⟨h.1, ?_⟩
  rw [List.all_eq_true]
  intro e he
  have hp := h.2 e he
  simp [hp.1, hp.2]

theorem splitOnP_no_sep (c : Char) (xs : List Char) (h : c ∉ xs) :
    splitOnP (fun x => x == c) xs = [xs] := by
  induction xs with
  | nil => rfl
  | cons a as ih =>
    have ha : ¬(a == c) = true := by
      simp only [beq_iff_eq]
      intro hac
      exact h (hac ▸ List.mem_cons_self a as)
    have has : c ∉ as := fun hm => h (List.mem_cons_of_mem a hm)
    simp [splitOnP, ha, ih has]

theorem splitOnP_append_sep (c : Char) (xs ys : List Char) (h : c ∉ xs) :
    splitOnP (fun x => x == c) (xs ++ c :: ys) =
      xs :: splitOnP (fun x => x == c) ys := by
  induction xs with
  | nil => simp [splitOnP]
  | cons a as ih =>
    have ha : ¬(a == c) = true := by
      simp only [beq_iff_eq]
      intro hac
      exact h (hac ▸ List.mem_cons_self a as)
    have has : c ∉ as := fun hm => h (List.mem_cons_of_mem a hm)
    simp [splitOnP, ha, ih has]

theorem goSplit_ingest_path (s a : String) (hs : '/' ∉ s.data)
    (ha : '/' ∉ a.data) :
    goSplit '/' ("sites" ++ "/" ++ (s ++ "/" ++ ("agents" ++ "/" ++
        (a ++ "/" ++ "ingest")))) = ["sites", s, "agents", a, "ingest"] := by
  unfold goSplit
  have hdata : ("sites" ++ "/" ++ (s ++ "/" ++ ("agents" ++ "/" ++
      (a ++ "/" ++ "ingest")))).data =
      "sites".data ++ '/' :: (s.data ++ '/' :: ("agents".data ++ '/' ::
        (a.data ++ '/' :: "ingest".data))) := by
    simp [String.data_append]
  rw [hdata,
    splitOnP_append_sep _ _ _ (by decide),
    splitOnP_append_sep _ _ _ hs,
    splitOnP_append_sep _ _ _ (by decide),
    splitOnP_append_sep _ _ _ ha,
    splitOnP_no_sep _ _ (by decide)]
  rfl

theorem cleanStep_push (rooted : Bool) (stack : List String) (e : String)
    (h1 : e ≠ "") (h2 : e ≠ ".") (h3 : e ≠ "..") :
    cleanStep rooted stack e = e :: stack := by
  simp [cleanStep, h1, h2, h3]

theorem goPathClean_ingest_path (s a : String) (hs1 : s ≠ "")
    (hs2 : '/' ∉ s.data) (hs3 : s ≠ ".") (hs4 : s ≠ "..")
    (ha1 : a ≠ "") (ha2 : '/' ∉ a.data) (ha3 : a ≠ ".") (ha4 : a ≠ "..") :
    goPathClean ("sites" ++ "/" ++ (s ++ "/" ++ ("agents" ++ "/" ++
        (a ++ "/" ++ "ingest")))) =
      "sites" ++ "/" ++ (s ++ "/" ++ ("agents" ++ "/" ++
        (a ++ "/" ++ "ingest"))) := by
  have hrooted : ¬(("sites" ++ "/" ++ (s ++ "/" ++ ("agents" ++ "/" ++
      (a ++ "/" ++ "ingest")))).data.headD ' ' = '/') := by
    rw [show ("sites" ++ "/" ++ (s ++ "/" ++ ("agents" ++ "/" ++
      (a ++ "/" ++ "ingest")))).data.headD ' ' = 's' from rfl]
    decide
  have hne : ("sites" ++ "/" ++ (s ++ "/" ++ ("agents" ++ "/" ++
      (a ++ "/" ++ "ingest")))) ≠ "" := by
    intro h
    have hd := congrArg String.data h
    simp [String.data_append] at hd
  have hrev : (["ingest", a, "agents", s, "sites"] : List String).reverse
      = ["sites", s, "agents", a, "ingest"] := by simp
  have hjoin : goJoin "/" ["sites", s, "agents", a, "ingest"] =
      "sites" ++ "/" ++ (s ++ "/" ++ ("agents" ++ "/" ++
        (a ++ "/" ++ "ingest"))) := rfl
  simp only [goPathClean]
  rw [goSplit_ingest_path s a hs2 ha2]
  rw [List.foldl_cons, cleanStep_push _ _ _ (by decide) (by decide) (by decide),
    List.foldl_cons, cleanStep_push _ _ _ hs1 hs3 hs4,
    List.foldl_cons, cleanStep_push _ _ _ (by decide) (by decide) (by decide),
    List.foldl_cons, cleanStep_push _ _ _ ha1 ha3 ha4,
    List.foldl_cons, cleanStep_push _ _ _ (by decide) (by decide) (by decide),
    List.foldl_nil]
  rw [hrev, hjoin, if_neg hrooted, if_neg hne]

theorem goPathJoin_ingest (s a : String) (hs1 : s ≠ "")
    (hs2 : '/' ∉ s.data) (hs3 : s ≠ ".") (hs4 : s ≠ "..")
    (ha1 : a ≠ "") (ha2 : '/' ∉ a.data) (ha3 : a ≠ ".") (ha4 : a ≠ "..") :
    goPathJoin ["sites", s, "agents", a, "ingest"] =
      "sites" ++ "/" ++ (s ++ "/" ++ ("agents" ++ "/" ++
        (a ++ "/" ++ "ingest"))) := by
  have hstep : goPathJoin ["sites", s, "agents", a, "ingest"] =
      goPathClean ("sites" ++ "/" ++ (s ++ "/" ++ ("agents" ++ "/" ++
        (a ++ "/" ++ "ingest")))) := rfl
  rw [hstep, goPathClean_ingest_path s a hs1 hs2 hs3 hs4 ha1 ha2 ha3 ha4]

/-- C6 as stated is false: for the enabled config with SiteID "..", the
endpoint is not the trimmed base followed by "/sites/" + SiteID +
"/agents/" + AgentID + "/ingest" — `path.Join` cleans the ".." away. -/
theorem c6_endpoint_counterexample :
    rcDotDot.ControllerURL ≠ "" ∧ rcDotDot.SiteID ≠ "" ∧
      rcDotDot.AgentID ≠ "" ∧
    rcDotDot.endpoint = .ok "https://ctrl.example.com/api/agents/agent1/ingest" ∧
    "https://ctrl.example.com/api/agents/agent1/ingest" ≠
      trimRightSlashes rcDotDot.ControllerURL ++ "/sites/" ++
        rcDotDot.SiteID ++ "/agents/" ++ rcDotDot.AgentID ++ "/ingest" := by
  refine ⟨by decide, by decide, by decide, rfl, by decide⟩

/-- C6 (amended): for every RemoteConfig whose ControllerURL, SiteID and
AgentID are non-empty and whose SiteID and AgentID contain no slash and
are not the dot path elements "." or "..", the ingest endpoint is the
ControllerURL with trailing slashes removed followed by
"/sites/" + SiteID + "/agents/" + AgentID + "/ingest". -/
theorem c6_endpoint_amended (rc : RemoteConfig)
    (hc : rc.ControllerURL ≠ "") (hs1 : rc.SiteID ≠ "")
    (ha1 : rc.AgentID ≠ "")
    (hs2 : '/' ∉ rc.SiteID.data) (hs3 : rc.SiteID ≠ ".")
    (hs4 : rc.SiteID ≠ "..")
    (ha2 : '/' ∉ rc.AgentID.data) (ha3 : rc.AgentID ≠ ".")
    (ha4 : rc.AgentID ≠ "..") :
    rc.endpoint = .ok (trimRightSlashes rc.ControllerURL ++ "/sites/" ++
      rc.SiteID ++ "/agents/" ++ rc.AgentID ++ "/ingest") := by
  have hEn : rc.Enabled = true := by
    simp [RemoteConfig.Enabled, hc, hs1, ha1]
  unfold RemoteConfig.endpoint
  rw [hEn]
  simp only [Bool.not_true, Bool.false_eq_true, if_false]
  rw [goPathJoin_ingest rc.SiteID rc.AgentID hs1 hs2 hs3 hs4 ha1 ha2 ha3 ha4]
  congr 1
  apply String.ext
  simp [String.data_append]

theorem c6_endpoint_amended_witness :
    rcFull.endpoint =
      .ok "https://ctrl.example.com/api/sites/site1/agents/agent1/ingest" := by
  have h := c6_endpoint_amended rcFull (by decide) (by decide) (by decide)
    (by decide) (by decide) (by decide) (by decide) (by decide) (by decide)
  rw [h]
  simp only [Except.ok.injEq]
  decide

theorem jLookup_cons_self (k : String) (v : Jv) (rest : List (String × Jv)) :
    jLookup k ((k, v) :: rest) = some v := by
  simp [jLookup]

theorem jLookup_cons_ne (k k2 : String) (v : Jv) (rest : List (String × Jv))
    (h : k ≠ k2) : jLookup k ((k2, v) :: rest) = jLookup k rest := by
  simp [jLookup, h]

theorem jLookup_optField_self (k : String) (b : Bool) (v : Jv) :
    jLookup k (optField k b v) = if b then some v else none := by
  cases b <;> simp [optField, jLookup]

theorem jLookup_optField_ne (k k2 : String) (b : Bool) (v : Jv)
    (h : k ≠ k2) : jLookup k (optField k2 b v) = none := by
  cases b <;> simp [optField, jLookup, h]

theorem jLookup_optField_self_append (k : String) (b : Bool) (v : Jv)
    (rest : List (String × Jv)) :
    jLookup k (optField k b v ++ rest) =
      if b then some v else jLookup k rest := by
  cases b <;> simp [optField, jLookup]

theorem jLookup_optField_ne_append (k k2 : String) (b : Bool) (v : Jv)
    (rest : List (String × Jv)) (h : k ≠ k2) :
    jLookup k (optField k2 b v ++ rest) = jLookup k rest := by
  cases b <;> simp [optField, jLookup, h]

theorem decode_encode_remotePort (p : RemotePort) :
    decodeRemotePort (encodeRemotePort p) = p := by
  have hport : jGetInt (([("port", Jv.num p.Port),
      ("protocol", Jv.str p.Protocol)] ++
      optField "service" (p.Service != "") (Jv.str p.Service) ++
      optField "state" (p.State != "") (Jv.str p.State))) "port"
      = p.Port := by
    simp only [jGetInt, List.append_assoc, List.cons_append, List.nil_append,
      jLookup_cons_self]
  have hproto : jGetStr (([("port", Jv.num p.Port),
      ("protocol", Jv.str p.Protocol)] ++
      optField "service" (p.Service != "") (Jv.str p.Service) ++
      optField "state" (p.State != "") (Jv.str p.State))) "protocol"
      = p.Protocol := by
    simp only [jGetStr, List.append_assoc, List.cons_append, List.nil_append]
    rw [jLookup_cons_ne _ _ _ _ (by simp), jLookup_cons_self]
  have hsv : jGetStr (([("port", Jv.num p.Port),
      ("protocol", Jv.str p.Protocol)] ++
      optField "service" (p.Service != "") (Jv.str p.Service) ++
      optField "state" (p.State != "") (Jv.str p.State))) "service"
      = p.Service := by
    simp only [jGetStr, List.append_assoc, List.cons_append, List.nil_append]
    rw [jLookup_cons_ne _ _ _ _ (by simp), jLookup_cons_ne _ _ _ _ (by simp),
      jLookup_optField_self_append]
    by_cases hv : p.Service = ""
    · rw [if_neg (by simp [hv]),
        jLookup_optField_ne _ _ _ _ (by simp)]
      simp [hv]
    · rw [if_pos (by simp [hv])]
  have hst : jGetStr (([("port", Jv.num p.Port),
      ("protocol", Jv.str p.Protocol)] ++
      optField "service" (p.Service != "") (Jv.str p.Service) ++
      optField "state" (p.State != "") (Jv.str p.State))) "state"
      = p.State := by
    simp only [jGetStr, List.append_assoc, List.cons_append, List.nil_append]
    rw [jLookup_cons_ne _ _ _ _ (by simp), jLookup_cons_ne _ _ _ _ (by simp),
      jLookup_optField_ne_append _ _ _ _ _ (by simp),
      jLookup_optField_self]
    by_cases hv : p.State = "" <;> simp [hv]
  show ({ Port := _, Protocol := _, Service := _, State := _ } : RemotePort) = p
  rw [hport, hproto, hsv, hst]

theorem map_roundtrip {α β : Type} (f : α → β) (g : β → α)
    (hfg : ∀ x, g (f x) = x) : ∀ l : List α, (l.map f).map g = l := by
  intro l
  induction l with
  | nil => rfl
  | cons x xs ih => simp [hfg, ih]

theorem lookup_hostFields_ip (p : RemoteHostPayload) :
    jLookup "ip" (hostFields p) = some (Jv.str p.IP) := by
  unfold hostFields
  simp only [List.append_assoc, List.singleton_append, List.cons_append,
    List.nil_append]
  rw [jLookup_cons_self]

theorem lookup_hostFields_hostname (p : RemoteHostPayload) :
    jLookup "hostname" (hostFields p) =
      (if p.Hostname != "" then some (Jv.str p.Hostname) else none) := by
  unfold hostFields
  simp only [List.append_assoc, List.singleton_append, List.cons_append,
    List.nil_append]
  rw [jLookup_cons_ne _ _ _ _ (by simp),
    jLookup_optField_self_append]
  by_cases hb : p.Hostname = ""
  · rw [if_neg (by simp [hb]), if_neg (by simp [hb]),
        jLookup_optField_ne_append _ _ _ _ _ (by simp),
        jLookup_optField_ne_append _ _ _ _ _ (by simp),
        jLookup_optField_ne_append _ _ _ _ _ (by simp),
        jLookup_optField_ne_append _ _ _ _ _ (by simp),
        jLookup_optField_ne_append _ _ _ _ _ (by simp),
        jLookup_optField_ne_append _ _ _ _ _ (by simp),
        jLookup_optField_ne _ _ _ _ (by simp)]
  · rw [if_pos (by simp [hb]), if_pos (by simp [hb])]

theorem lookup_hostFields_os (p : RemoteHostPayload) :
    jLookup "os" (hostFields p) =
      (if p.OS != "" then some (Jv.str p.OS) else none) := by
  unfold hostFields
  simp only [List.append_assoc, List.singleton_append, List.cons_append,
    List.nil_append]
  rw [jLookup_cons_ne _ _ _ _ (by simp),
    jLookup_optField_ne_append _ _ _ _ _ (by simp),
    jLookup_optField_self_append]
  by_cases hb : p.OS = ""
  · rw [if_neg (by simp [hb]), if_neg (by simp [hb]),
        jLookup_optField_ne_append _ _ _ _ _ (by simp),
        jLookup_optField_ne_append _ _ _ _ _ (by simp),
        jLookup_optField_ne_append _ _ _ _ _ (by simp),
        jLookup_optField_ne_append _ _ _ _ _ (by simp),
        jLookup_optField_ne_append _ _ _ _ _ (by simp),
        jLookup_optField_ne _ _ _ _ (by simp)]
  · rw [if_pos (by simp [hb]), if_pos (by simp [hb])]

theorem lookup_hostFields_mac (p : RemoteHostPayload) :
    jLookup "mac" (hostFields p) =
      (if p.MAC != "" then some (Jv.str p.MAC) else none) := by
  unfold hostFields
  simp only [List.append_assoc, List.singleton_append, List.cons_append,
    List.nil_append]
  rw [jLookup_cons_ne _ _ _ _ (by simp),
    jLookup_optField_ne_append _ _ _ _ _ (by simp),
    jLookup_optField_ne_append _ _ _ _ _ (by simp),
    jLookup_optField_self_append]
  by_cases hb : p.MAC = ""
  · rw [if_neg (by simp [hb]), if_neg (by simp [hb]),
        jLookup_optField_ne_append _ _ _ _ _ (by simp),
        jLookup_optField_ne_append _ _ _ _ _ (by simp),
        jLookup_optField_ne_append _ _ _ _ _ (by simp),
        jLookup_optField_ne_append _ _ _ _ _ (by simp),
        jLookup_optField_ne _ _ _ _ (by simp)]
  · rw [if_pos (by simp [hb]), if_pos (by simp [hb])]

theorem lookup_hostFields_note (p : RemoteHostPayload) :
    jLookup "note" (hostFields p) =
      (if p.Note != "" then some (Jv.str p.Note) else none) := by
  unfold hostFields
  simp only [List.append_assoc, List.singleton_append, List.cons_append,
    List.nil_append]
  rw [jLookup_cons_ne _ _ _ _ (by simp),
    jLookup_optField_ne_append _ _ _ _ _ (by simp),
    jLookup_optField_ne_append _ _ _ _ _ (by simp),
    jLookup_optField_ne_append _ _ _ _ _ (by simp),
    jLookup_optField_self_append]
  by_cases hb : p.Note = ""
  · rw [if_neg (by simp [hb]), if_neg (by simp [hb]),
        jLookup_optField_ne_append _ _ _ _ _ (by simp),
        jLookup_optField_ne_append _ _ _ _ _ (by simp),
        jLookup_optField_ne_append _ _ _ _ _ (by simp),
        jLookup_optField_ne _ _ _ _ (by simp)]
  · rw [if_pos (by simp [hb]), if_pos (by simp [hb])]

theorem lookup_hostFields_tags (p : RemoteHostPayload) :
    jLookup "tags" (hostFields p) =
      (if !p.Tags.isEmpty then some (Jv.arr (p.Tags.map Jv.str)) else none) := by
  unfold hostFields
  simp only [List.append_assoc, List.singleton_append, List.cons_append,
    List.nil_append]
  rw [jLookup_cons_ne _ _ _ _ (by simp),
    jLookup_optField_ne_append _ _ _ _ _ (by simp),
    jLookup_optField_ne_append _ _ _ _ _ (by simp),
    jLookup_optField_ne_append _ _ _ _ _ (by simp),
    jLookup_optField_ne_append _ _ _ _ _ (by simp),
    jLookup_optField_self_append]
  cases hb : p.Tags.isEmpty
  · rw [if_pos (by decide), if_pos (by decide)]
  · rw [if_neg (by decide), if_neg (by decide),
        jLookup_optField_ne_append _ _ _ _ _ (by simp),
        jLookup_optField_ne_append _ _ _ _ _ (by simp),
        jLookup_optField_ne _ _ _ _ (by simp)]

theorem lookup_hostFields_last_seen (p : RemoteHostPayload) :
    jLookup "last_seen" (hostFields p) =
      (if p.LastSeen != "" then some (Jv.str p.LastSeen) else none) := by
  unfold hostFields
  simp only [List.append_assoc, List.singleton_append, List.cons_append,
    List.nil_append]
  rw [jLookup_cons_ne _ _ _ _ (by simp),
    jLookup_optField_ne_append _ _ _ _ _ (by simp),
    jLookup_optField_ne_append _ _ _ _ _ (by simp),
    jLookup_optField_ne_append _ _ _ _ _ (by simp),
    jLookup_optField_ne_append _ _ _ _ _ (by simp),
    jLookup_optField_ne_append _ _ _ _ _ (by simp),
    jLookup_optField_self_append]
  by_cases hb : p.LastSeen = ""
  · rw [if_neg (by simp [hb]), if_neg (by simp [hb]),
        jLookup_optField_ne_append _ _ _ _ _ (by simp),
        jLookup_optField_ne _ _ _ _ (by simp)]
  · rw [if_pos (by simp [hb]), if_pos (by simp [hb])]

theorem lookup_hostFields_metadata (p : RemoteHostPayload) :
    jLookup "metadata" (hostFields p) =
      (if !p.Metadata.isEmpty then some (Jv.obj p.Metadata) else none) := by
  unfold hostFields
  simp only [List.append_assoc, List.singleton_append, List.cons_append,
    List.nil_append]
  rw [jLookup_cons_ne _ _ _ _ (by simp),
    jLookup_optField_ne_append _ _ _ _ _ (by simp),
    jLookup_optField_ne_append _ _ _ _ _ (by simp),
    jLookup_optField_ne_append _ _ _ _ _ (by simp),
    jLookup_optField_ne_append _ _ _ _ _ (by simp),
    jLookup_optField_ne_append _ _ _ _ _ (by simp),
    jLookup_optField_ne_append _ _ _ _ _ (by simp),
    jLookup_optField_self_append]
  cases hb : p.Metadata.isEmpty
  · rw [if_pos (by decide), if_pos (by decide)]
  · rw [if_neg (by decide), if_neg (by decide),
        jLookup_optField_ne _ _ _ _ (by simp)]

theorem lookup_hostFields_ports (p : RemoteHostPayload) :
    jLookup "ports" (hostFields p) =
      (if !p.Ports.isEmpty then some (Jv.arr (p.Ports.map encodeRemotePort)) else none) := by
  unfold hostFields
  simp only [List.append_assoc, List.singleton_append, List.cons_append,
    List.nil_append]
  rw [jLookup_cons_ne _ _ _ _ (by simp),
    jLookup_optField_ne_append _ _ _ _ _ (by simp),
    jLookup_optField_ne_append _ _ _ _ _ (by simp),
    jLookup_optField_ne_append _ _ _ _ _ (by simp),
    jLookup_optField_ne_append _ _ _ _ _ (by simp),
    jLookup_optField_ne_append _ _ _ _ _ (by simp),
    jLookup_optField_ne_append _ _ _ _ _ (by simp),
    jLookup_optField_ne_append _ _ _ _ _ (by simp),
    jLookup_optField_self]

theorem decode_encode_host (p : RemoteHostPayload) :
    decodeRemoteHostPayload (encodeRemoteHostPayload p) = p := by
  show ({ IP := jGetStr (hostFields p) "ip"
          Hostname := jGetStr (hostFields p) "hostname"
          OS := jGetStr (hostFields p) "os"
          MAC := jGetStr (hostFields p) "mac"
          Note := jGetStr (hostFields p) "note"
          Tags :=
            match jLookup "tags" (hostFields p) with
            | some (.arr xs) => xs.map jvToStr
            | _ => []
          LastSeen := jGetStr (hostFields p) "last_seen"
          Metadata :=
            match jLookup "metadata" (hostFields p) with
            | some (.obj m) => m
            | _ => []
          Ports :=
            match jLookup "ports" (hostFields p) with
            | some (.arr xs) => xs.map decodeRemotePort
            | _ => [] } : RemoteHostPayload) = p
  have hip : jGetStr (hostFields p) "ip" = p.IP := by
    rw [jGetStr, lookup_hostFields_ip]
  have hhn : jGetStr (hostFields p) "hostname" = p.Hostname := by
    rw [jGetStr, lookup_hostFields_hostname]
    by_cases hb : p.Hostname = "" <;> simp [hb]
  have hos : jGetStr (hostFields p) "os" = p.OS := by
    rw [jGetStr, lookup_hostFields_os]
    by_cases hb : p.OS = "" <;> simp [hb]
  have hmac : jGetStr (hostFields p) "mac" = p.MAC := by
    rw [jGetStr, lookup_hostFields_mac]
    by_cases hb : p.MAC = "" <;> simp [hb]
  have hnote : jGetStr (hostFields p) "note" = p.Note := by
    rw [jGetStr, lookup_hostFields_note]
    by_cases hb : p.Note = "" <;> simp [hb]
  have hls : jGetStr (hostFields p) "last_seen" = p.LastSeen := by
    rw [jGetStr, lookup_hostFields_last_seen]
    by_cases hb : p.LastSeen = "" <;> simp [hb]
  have htags : (match jLookup "tags" (hostFields p) with
      | some (.arr xs) => xs.map jvToStr
      | _ => ([] : List String)) = p.Tags := by
    rw [lookup_hostFields_tags]
    rcases hb : p.Tags with _ | ⟨x, xs⟩
    · simp
    · simp [map_roundtrip Jv.str jvToStr (fun y => rfl), jvToStr]
  have hmd : (match jLookup "metadata" (hostFields p) with
      | some (.obj m) => m
      | _ => ([] : List (String × Jv))) = p.Metadata := by
    rw [lookup_hostFields_metadata]
    rcases hb : p.Metadata with _ | ⟨x, xs⟩ <;> simp
  have hports : (match jLookup "ports" (hostFields p) with
      | some (.arr xs) => xs.map decodeRemotePort
      | _ => ([] : List RemotePort)) = p.Ports := by
    rw [lookup_hostFields_ports]
    rcases hb : p.Ports with _ | ⟨x, xs⟩
    · simp
    · simp [map_roundtrip encodeRemotePort decodeRemotePort
        decode_encode_remotePort, decode_encode_remotePort]
  rw [hip, hhn, hos, hmac, hnote, hls, htags, hmd, hports]

/-- C7: converting a `HostRecord` with `ToRemoteHostPayload`, marshalling
the result to JSON and unmarshalling it back reproduces the payload
exactly — in particular every originally non-empty optional field
(hostname, os, mac, note, tags, metadata, ports, last_seen) is
unchanged. -/
theorem c7_payload_roundtrip (h : HostRecord) :
    decodeRemoteHostPayload (encodeRemoteHostPayload h.ToRemoteHostPayload)
      = h.ToRemoteHostPayload :=
  decode_encode_host _

/-- C2 as stated is false: in repeating mode (Once = false), a failure of
the initial immediately-run cycle makes `RunRemoteAgent` return that
cycle's error instead of continuing to the next tick. -/
theorem c2_scheduler_counterexample :
    cfgRepeat.Once = false ∧
    runRemoteAgent cyclesFailFirst 5 cfgRepeat = .err "scan failed" := by
  constructor
  · rfl
  · decide

theorem agentLoop_always_running (cycles : Nat → Except String Unit) :
    ∀ n i, agentLoop cycles i n = .running := by
  intro n
  induction n with
  | zero => intro i; rfl
  | succ m ih =>
    intro i
    cases hc : cycles i <;> simp [agentLoop, hc, ih]

/-- C2 (amended): with an enabled remote config, in repeating mode a
successful initial cycle leads into the tick loop which never returns —
every later cycle failure is logged and the loop continues, for every
failure pattern and number of observed ticks; but a failure of the
initial startup cycle is propagated to the caller in repeating mode as
well; in one-shot mode the initial cycle's outcome (success or error)
is likewise propagated. -/
theorem c2_scheduler_amended (cycles : Nat → Except String Unit)
    (ticks : Nat) (cfg : AgentConfig) (hEn : cfg.Remote.Enabled = true) :
    (cfg.Once = false → cycles 0 = .ok () →
      runRemoteAgent cycles ticks cfg = .running) ∧
    (∀ e, cycles 0 = .error e → runRemoteAgent cycles ticks cfg = .err e) ∧
    (cfg.Once = true → cycles 0 = .ok () →
      runRemoteAgent cycles ticks cfg = .stopped) := by
  refine ⟨?_, ?_, ?_⟩
  · intro honce hok
    simp [runRemoteAgent, hEn, hok, honce, agentLoop_always_running]
  · intro e herr
    simp [runRemoteAgent, hEn, herr]
  · intro honce hok
    simp [runRemoteAgent, hEn, hok, honce]

theorem c2_scheduler_amended_witness :
    runRemoteAgent cyclesFailLater 3 cfgRepeat = .running := by
  have h := c2_scheduler_amended cyclesFailLater 3 cfgRepeat (by decide)
  exact h.1 rfl rfl

theorem keyIs_iff (ip iface : String) (r : HostRow) :
    keyIs ip iface r = true ↔ (r.ip = ip ∧ r.interface_name = iface) := by
  simp [keyIs]

theorem applyUpsertDefaults_IP (now : GoTime) (h : HostRecord) :
    (applyUpsertDefaults now h).IP = h.IP := rfl

theorem applyUpsertDefaults_iface (now : GoTime) (h : HostRecord) :
    (applyUpsertDefaults now h).InterfaceName = h.InterfaceName := rfl

theorem applyUpsertDefaults_status (now : GoTime) (h : HostRecord) :
    (applyUpsertDefaults now h).OnlineStatus =
      (if h.OnlineStatus = "" then "online" else h.OnlineStatus) := rfl

theorem updateRow_key (r v : HostRow) (ip iface : String) :
    keyIs ip iface (updateRow r v) = keyIs ip iface r := rfl

theorem mutableCols_updateRow (r v : HostRow) :
    mutableCols (updateRow r v) = mutableCols v := rfl

theorem filter_map_comm {α : Type} (f : α → α) (p : α → Bool)
    (hp : ∀ r, p (f r) = p r) (l : List α) :
    (l.map f).filter p = (l.filter p).map f := by
  induction l with
  | nil => rfl
  | cons x xs ih =>
    by_cases hx : p x = true <;>
      simp [List.filter_cons, hp, hx, ih]

theorem filter_length_one {α : Type} (p : α → Bool) (l : List α)
    (hpos : l.any p = true) (hle : (l.filter p).length ≤ 1) :
    ∃ r, l.filter p = [r] ∧ p r = true := by
  rcases hf : l.filter p with _ | ⟨r, rest⟩
  · exfalso
    rcases List.any_eq_true.mp hpos with ⟨x, hx, hpx⟩
    have hmem : x ∈ l.filter p := List.mem_filter.mpr ⟨hx, hpx⟩
    rw [hf] at hmem
    simp at hmem
  · have hrest : rest = [] := by
      rw [hf] at hle
      simpa using hle
    subst hrest
    have hr : r ∈ l.filter p := by
      rw [hf]
      exact List.mem_cons_self r []
    exact ⟨r, rfl, (List.mem_filter.mp hr).2⟩

theorem map_id_on {α : Type} (f : α → α) (p : α → Bool) (l : List α)
    (hid : ∀ r, p r = true → f r = r) :
    (l.filter p).map f = l.filter p := by
  induction l with
  | nil => rfl
  | cons x xs ih =>
    by_cases hx : p x = true <;>
      simp [List.filter_cons, hx, ih, hid]

theorem upsertRow_key_pres (v : HostRow) (ip iface : String) (r : HostRow) :
    keyIs ip iface (if keyIs v.ip v.interface_name r then updateRow r v
      else r) = keyIs ip iface r := by
  by_cases hr : keyIs v.ip v.interface_name r = true <;>
    simp [hr, updateRow_key]

theorem upsertRow_filter_self (table : List HostRow) (v : HostRow)
    (hle : (table.filter (keyIs v.ip v.interface_name)).length ≤ 1) :
    ∃ r, (upsertRow table v).filter (keyIs v.ip v.interface_name) = [r] ∧
      mutableCols r = mutableCols v := by
  unfold upsertRow
  by_cases hany : table.any (keyIs v.ip v.interface_name) = true
  · rw [if_pos hany,
      filter_map_comm _ _ (upsertRow_key_pres v v.ip v.interface_name) table]
    obtain ⟨r, hr, hpr⟩ := filter_length_one _ _ hany hle
    rw [hr]
    refine ⟨updateRow r v, ?_, mutableCols_updateRow r v⟩
    simp [hpr]
  · rw [if_neg hany, List.filter_append]
    have h1 : table.filter (keyIs v.ip v.interface_name) = [] := by
      rw [List.filter_eq_nil_iff]
      intro a ha hpa
      exact hany (List.any_eq_true.mpr ⟨a, ha, hpa⟩)
    have h2 : [v].filter (keyIs v.ip v.interface_name) = [v] := by
      simp [List.filter_cons, keyIs]
    rw [h1, h2, List.nil_append]
    exact ⟨v, rfl, rfl⟩

theorem upsertRow_filter_other (table : List HostRow) (v : HostRow)
    (ip iface : String) (hne : ¬(v.ip = ip ∧ v.interface_name = iface)) :
    (upsertRow table v).filter (keyIs ip iface) =
      table.filter (keyIs ip iface) := by
  unfold upsertRow
  by_cases hany : table.any (keyIs v.ip v.interface_name) = true
  · rw [if_pos hany, filter_map_comm _ _ (upsertRow_key_pres v ip iface) table,
      map_id_on]
    intro r hpr
    have hr := (keyIs_iff ip iface r).mp hpr
    have hrv : keyIs v.ip v.interface_name r = false := by
      rw [Bool.eq_false_iff]
      intro hcon
      have hc := (keyIs_iff v.ip v.interface_name r).mp hcon
      exact hne ⟨by rw [← hc.1, hr.1], by rw [← hc.2, hr.2]⟩
    simp [hrv]
  · rw [if_neg hany, List.filter_append]
    have h2 : [v].filter (keyIs ip iface) = [] := by
      have hkv : keyIs ip iface v = false := by
        rw [Bool.eq_false_iff]
        intro hcon
        have hc := (keyIs_iff ip iface v).mp hcon
        exact hne ⟨hc.1, hc.2⟩
      simp [List.filter_cons, hkv]
    rw [h2, List.append_nil]

theorem rowOfHost_key (t : GoTime) (h : HostRecord) (ip iface : String)
    (hip : h.IP = ip) (hif : h.InterfaceName = iface) :
    (rowOfHost (applyUpsertDefaults t h)).ip = ip ∧
      (rowOfHost (applyUpsertDefaults t h)).interface_name = iface := by
  constructor
  · rw [show (rowOfHost (applyUpsertDefaults t h)).ip = h.IP from rfl, hip]
  · rw [show (rowOfHost (applyUpsertDefaults t h)).interface_name
      = h.InterfaceName from rfl, hif]

theorem foldl_upsert_count (pairs : List (GoTime × HostRecord))
    (table : List HostRow) (ip iface : String)
    (hkeys : ∀ q ∈ pairs, q.2.IP = ip ∧ q.2.InterfaceName = iface)
    (huniq : (table.filter (keyIs ip iface)).length ≤ 1) :
    (((pairs.foldl (fun t q => upsertHost q.1 t q.2) table).filter
      (keyIs ip iface)).length) ≤ 1 := by
  induction pairs generalizing table with
  | nil => simpa using huniq
  | cons q qs ih =>
    have hq := hkeys q (List.mem_cons_self q qs)
    obtain ⟨hv1, hv2⟩ := rowOfHost_key q.1 q.2 ip iface hq.1 hq.2
    rw [List.foldl_cons]
    refine ih _ (fun p hp => hkeys p (List.mem_cons_of_mem q hp)) ?_
    have := upsertRow_filter_self table (rowOfHost (applyUpsertDefaults q.1 q.2))
      (by rw [hv1, hv2]; exact huniq)
    obtain ⟨r, hr, _⟩ := this
    rw [hv1, hv2] at hr
    rw [show upsertHost q.1 table q.2
      = upsertRow table (rowOfHost (applyUpsertDefaults q.1 q.2)) from rfl, hr]
    simp

/-- C3: N ≥ 1 `upsertHost` calls against the same (ip, interface_name)
key — a sequence `ps` of calls followed by a final call `q`, each with
its own `time.Now()` and record — leave exactly one row for that key in
a table that respects the key's uniqueness, and its mutable columns
(name, os_details, mac_address, open_ports, next_hop, last_seen,
online_status) carry the values applied by the final call. -/
theorem c3_upsert_idempotence (ps : List (GoTime × HostRecord))
    (q : GoTime × HostRecord) (table : List HostRow) (ip iface : String)
    (hkeys : ∀ p ∈ ps ++ [q], p.2.IP = ip ∧ p.2.InterfaceName = iface)
    (huniq : (table.filter (keyIs ip iface)).length ≤ 1) :
    ∃ r, ((ps ++ [q]).foldl (fun t p => upsertHost p.1 t p.2) table).filter
        (keyIs ip iface) = [r] ∧
      mutableCols r =
        mutableCols (rowOfHost (applyUpsertDefaults q.1 q.2)) := by
  rw [List.foldl_append]
  have hq := hkeys q (by simp)
  obtain ⟨hv1, hv2⟩ := rowOfHost_key q.1 q.2 ip iface hq.1 hq.2
  have hcount := foldl_upsert_count ps table ip iface
    (fun p hp => hkeys p (List.mem_append_left _ hp)) huniq
  have hfin := upsertRow_filter_self
    (ps.foldl (fun t p => upsertHost p.1 t p.2) table)
    (rowOfHost (applyUpsertDefaults q.1 q.2)) (by rw [hv1, hv2]; exact hcount)
  rw [hv1, hv2] at hfin
  simpa [List.foldl_cons, List.foldl_nil, upsertHost] using hfin

theorem c3_upsert_idempotence_witness :
    ((([(gt1, hostA)] ++ [(gt2, hostB)]).foldl
        (fun t p => upsertHost p.1 t p.2) []).filter
      (keyIs "10.0.0.5" "eth0")).map mutableCols
      = [mutableCols (rowOfHost (applyUpsertDefaults gt2 hostB))] := by
  obtain ⟨r, hr, hm⟩ := c3_upsert_idempotence [(gt1, hostA)] (gt2, hostB) []
    "10.0.0.5" "eth0" (by decide) (by decide)
  rw [hr]
  simp [hm]

theorem foldl_upsert_mem_of_not_key (hosts : List HostRecord) (now : GoTime)
    (t : List HostRow) (r : HostRow)
    (hmem : r ∈ hosts.foldl (upsertHost now) t)
    (hnot : ∀ h ∈ hosts, ¬(h.IP = r.ip ∧ h.InterfaceName = r.interface_name)) :
    r ∈ t := by
  induction hosts generalizing t with
  | nil => simpa using hmem
  | cons h hs ih =>
    have hr1 : r ∈ upsertHost now t h := by
      refine ih _ ?_ (fun h2 hh2 => hnot h2 (List.mem_cons_of_mem h hh2))
      simpa [List.foldl_cons] using hmem
    have hhd := hnot h (List.mem_cons_self h hs)
    unfold upsertHost upsertRow at hr1
    by_cases hany : t.any (keyIs (rowOfHost (applyUpsertDefaults now h)).ip
        (rowOfHost (applyUpsertDefaults now h)).interface_name) = true
    · rw [if_pos hany] at hr1
      rcases List.mem_map.mp hr1 with ⟨r0, hr0, heq⟩
      by_cases hk : keyIs (rowOfHost (applyUpsertDefaults now h)).ip
          (rowOfHost (applyUpsertDefaults now h)).interface_name r0 = true
      · exfalso
        rw [if_pos hk] at heq
        have hkey := (keyIs_iff _ _ r0).mp hk
        refine hhd ⟨?_, ?_⟩
        · rw [show (rowOfHost (applyUpsertDefaults now h)).ip = h.IP from rfl]
            at hkey
          rw [← heq]
          exact hkey.1.symm
        · rw [show (rowOfHost (applyUpsertDefaults now h)).interface_name
            = h.InterfaceName from rfl] at hkey
          rw [← heq]
          exact hkey.2.symm
      · rw [if_neg hk] at heq
        rw [← heq]
        exact hr0
    · rw [if_neg hany] at hr1
      rcases List.mem_append.mp hr1 with hin | hin
      · exact hin
      · exfalso
        have hveq : r = rowOfHost (applyUpsertDefaults now h) := by
          simpa using hin
        refine hhd ⟨?_, ?_⟩
        · rw [hveq]
          rfl
        · rw [hveq]
          rfl

theorem upsert_key_online (now : GoTime) (t : List HostRow) (h : HostRecord)
    (r : HostRow) (hst : h.OnlineStatus = "" ∨ h.OnlineStatus = "online")
    (hmem : r ∈ upsertHost now t h)
    (hkey : h.IP = r.ip ∧ h.InterfaceName = r.interface_name) :
    r.online_status = "online" := by
  have hvonline : (rowOfHost (applyUpsertDefaults now h)).online_status
      = "online" := by
    rw [show (rowOfHost (applyUpsertDefaults now h)).online_status
      = (if h.OnlineStatus = "" then "online" else h.OnlineStatus) from rfl]
    rcases hst with hst | hst <;> simp [hst]
  unfold upsertHost upsertRow at hmem
  by_cases hany : t.any (keyIs (rowOfHost (applyUpsertDefaults now h)).ip
      (rowOfHost (applyUpsertDefaults now h)).interface_name) = true
  · rw [if_pos hany] at hmem
    rcases List.mem_map.mp hmem with ⟨r0, hr0, heq⟩
    by_cases hk : keyIs (rowOfHost (applyUpsertDefaults now h)).ip
        (rowOfHost (applyUpsertDefaults now h)).interface_name r0 = true
    · rw [if_pos hk] at heq
      rw [← heq]
      rw [show (updateRow r0 (rowOfHost (applyUpsertDefaults now h))).online_status
        = (rowOfHost (applyUpsertDefaults now h)).online_status from rfl]
      exact hvonline
    · exfalso
      rw [if_neg hk] at heq
      refine hk ((keyIs_iff _ _ r0).mpr ⟨?_, ?_⟩)
      · rw [show (rowOfHost (applyUpsertDefaults now h)).ip = h.IP from rfl,
          heq]
        exact hkey.1.symm
      · rw [show (rowOfHost (applyUpsertDefaults now h)).interface_name
          = h.InterfaceName from rfl, heq]
        exact hkey.2.symm
  · rw [if_neg hany] at hmem
    rcases List.mem_append.mp hmem with hin | hin
    · exfalso
      refine hany (List.any_eq_true.mpr ⟨r, hin, (keyIs_iff _ _ r).mpr
        ⟨?_, ?_⟩⟩)
      · rw [show (rowOfHost (applyUpsertDefaults now h)).ip = h.IP from rfl]
        exact hkey.1.symm
      · rw [show (rowOfHost (applyUpsertDefaults now h)).interface_name
          = h.InterfaceName from rfl]
        exact hkey.2.symm
    · have hveq : r = rowOfHost (applyUpsertDefaults now h) := by
        simpa using hin
      rw [hveq]
      exact hvonline

theorem foldl_upsert_online (hosts : List HostRecord) (now : GoTime)
    (t : List HostRow)
    (hstatus : ∀ h ∈ hosts, h.OnlineStatus = "" ∨ h.OnlineStatus = "online") :
    ∀ r ∈ hosts.foldl (upsertHost now) t,
      (∃ h ∈ hosts, h.IP = r.ip ∧ h.InterfaceName = r.interface_name) →
      r.online_status = "online" := by
  induction hosts generalizing t with
  | nil => simp
  | cons h hs ih =>
    intro r hmem hex
    rcases hex with ⟨h1, hh1, hk1⟩
    by_cases hin : ∃ h2 ∈ hs, h2.IP = r.ip ∧ h2.InterfaceName = r.interface_name
    · refine ih (upsertHost now t h)
        (fun h2 hh2 => hstatus h2 (List.mem_cons_of_mem h hh2)) r ?_ hin
      simpa [List.foldl_cons] using hmem
    · have hk : h.IP = r.ip ∧ h.InterfaceName = r.interface_name := by
        rcases List.mem_cons.mp hh1 with rfl | hmem1
        · exact hk1
        · exact absurd ⟨h1, hmem1, hk1⟩ hin
      have hr1 : r ∈ upsertHost now t h :=
        foldl_upsert_mem_of_not_key hs now _ r
          (by simpa [List.foldl_cons] using hmem)
          (fun h2 hh2 hcon => hin ⟨h2, hh2, hcon⟩)
      exact upsert_key_online now t h r (hstatus h (List.mem_cons_self h hs))
        hr1 hk

theorem markOffline_iface (touched : List String) (r : HostRow) :
    (markOffline touched r).interface_name = r.interface_name := by
  unfold markOffline
  split_ifs <;> rfl

/-- C4 (amended): after `SaveHostsToDB` marks the interface-scoped rows
offline and upserts the freshly observed set S, provided each record in
S carries OnlineStatus "" or "online" (as both scanners produce for live
hosts), every row whose key is in S is "online", and every row on a
touched interface whose key is not in S is "offline".  The unamended
claim fails because `upsertHost` stores the record's own OnlineStatus: a
record in S carrying "offline" yields an offline row. -/
theorem c4_offline_sweep_amended (now : GoTime) (table : List HostRow)
    (hosts : List HostRecord)
    (hstatus : ∀ h ∈ hosts, h.OnlineStatus = "" ∨ h.OnlineStatus = "online") :
    ∀ r ∈ SaveHostsToDB now table hosts,
      ((∃ h ∈ hosts, h.IP = r.ip ∧ h.InterfaceName = r.interface_name) →
        r.online_status = "online") ∧
      ((∀ h ∈ hosts, ¬(h.IP = r.ip ∧ h.InterfaceName = r.interface_name)) →
        r.interface_name ∈ touchedInterfaces hosts →
        r.online_status = "offline") := by
  intro r hmem
  unfold SaveHostsToDB at hmem
  by_cases hlen : hosts.length = 0
  · rw [if_pos hlen] at hmem
    have hnil : hosts = [] := List.length_eq_zero.mp hlen
    subst hnil
    constructor
    · intro hex
      simp at hex
    · intro _ htouched
      simp [touchedInterfaces] at htouched
  · rw [if_neg hlen] at hmem
    constructor
    · intro hex
      exact foldl_upsert_online hosts now _ hstatus r hmem hex
    · intro hnot htouched
      have hr1 : r ∈ table.map (markOffline (touchedInterfaces hosts)) :=
        foldl_upsert_mem_of_not_key hosts now _ r hmem hnot
      rcases List.mem_map.mp hr1 with ⟨r0, _, heq⟩
      by_cases hm0 : r0.interface_name ∈ touchedInterfaces hosts
      · rw [← heq]
        unfold markOffline
        rw [if_pos hm0]
      · exfalso
        have hif : r.interface_name = r0.interface_name := by
          rw [← heq, markOffline_iface]
        rw [hif] at htouched
        exact hm0 htouched

/-- C4 as stated is false: upserting the freshly observed set
S = {hostOff} leaves its row with online_status "offline", not "online" —
`upsertHost` stores the record's own status and only defaults the empty
string to "online". -/
theorem c4_offline_sweep_counterexample :
    hostOff.OnlineStatus = "offline" ∧
    (SaveHostsToDB gt1 [] [hostOff]).map
      (fun r => (r.ip, r.interface_name, r.online_status))
      = [("10.0.0.9", "eth1", "offline")] := by
  constructor
  · rfl
  · decide

theorem c4_offline_sweep_amended_witness :
    (SaveHostsToDB gt1 [rowOld] [hostA]).map
      (fun r => (r.ip, r.online_status))
      = [("10.0.0.7", "offline"), ("10.0.0.5", "online")] := by
  have h := c4_offline_sweep_amended gt1 [rowOld] [hostA] (by decide)
  decide

end Atlas
